import Mathlib

/-
Verification of the LocalLLM chat server against its specification.

The development shallowly embeds the relevant JavaScript sources:
  * `src/database/index.js`  — the SQLite-backed message store
    (`messages.getConversationContext`, `messages.findByConversation`,
    `messages.save`, `conversations.updateTimestamp`, ...),
  * the chat route handlers (`handleChatStream`, `handleChat`,
    `generateConversationTitle`),
  * the content helpers (`extractPlainText`, `escapeHtml`),
  * the file-system blob storage (`saveFile`, `getUserFiles`, `getFile`).

Machine integers do not overflow in any modelled path, so numbers are
plain `Nat`.  Timestamps (SQLite `CURRENT_TIMESTAMP`, `Date.now()`,
`fs.Stats.birthtime`) are modelled as `Nat` instants.  Rows returned by
SQL queries are modelled as Lean lists of row structures; `ORDER BY` is
modelled by insertion sort on the ordering key (SQLite does not specify
the relative order of ties, the model fixes one total order consistent
with the SQL ordering).  Asynchronous handlers are modelled as pure
functions from an environment (the outcome of every awaited I/O call) to
the ordered trace of calls they issue plus the HTTP response; a rejected
promise makes control jump to the enclosing catch block, exactly as in
the JavaScript source.
-/

/-- Role of a chat message, the SQL CHECK constraint
`role IN ('user', 'assistant', 'system')`. -/
inductive Role where
  | user
  | assistant
  | system
deriving DecidableEq

/-- A row of the `messages` table. -/
structure MsgRow where
  id : Nat
  conversation_id : Nat
  role : Role
  content : String
  model : Option String
  created_at : Nat
deriving DecidableEq

/-- A row of the `conversations` table. -/
structure ConvRow where
  id : Nat
  user_id : Nat
  title : String
  created_at : Nat
  updated_at : Nat
deriving DecidableEq

/-- Comparison used by `ORDER BY created_at ASC` on `messages`. -/
def msgLe (a b : MsgRow) : Prop := a.created_at ≤ b.created_at

instance : DecidableRel msgLe := fun a b => Nat.decLe a.created_at b.created_at

instance : IsTotal MsgRow msgLe := ⟨fun a b => Nat.le_total a.created_at b.created_at⟩

instance : IsTrans MsgRow msgLe := ⟨fun _ _ _ h1 h2 => Nat.le_trans h1 h2⟩

/-- SQL `ORDER BY m.created_at ASC` over a bag of message rows.  SQLite
leaves the relative order of equal keys unspecified; the model fixes the
stable insertion-sort order. -/
def orderByCreatedAsc (rows : List MsgRow) : List MsgRow :=
  List.insertionSort msgLe rows

/-- SQL `ORDER BY created_at DESC LIMIT n`, modelled as the reverse of
the canonical ascending order, truncated to `n` rows. -/
def orderByCreatedDescLimit (rows : List MsgRow) (n : Nat) : List MsgRow :=
  (orderByCreatedAsc rows).reverse.take n

/-- An entry of the context window sent to the completion service
(`SELECT role, content` — only the two projected columns). -/
structure ContextEntry where
  role : Role
  content : String
deriving DecidableEq

/-- Projection `row => ({role: row.role, content: row.content})` from
`messages.getConversationContext`. -/
def toContextEntry (r : MsgRow) : ContextEntry :=
  ⟨r.role, r.content⟩

/-- The synthetic system message unshifted by
`messages.getConversationContext` when the fetched row count equals the
configured window size. -/
def truncationWarning : ContextEntry :=
  ⟨Role.system, "This is a continuation of an ongoing conversation. Previous context may have been truncated due to length limits. Please maintain consistency with the conversation flow."⟩

/-- Embedding of `messages.getConversationContext` from
`src/database/index.js`: fetch the most recent `window` messages of the
conversation (`ORDER BY created_at DESC LIMIT window`), reverse them to
chronological order, project to `{role, content}`, and prepend the
truncation warning when exactly `window` rows were fetched.  `rows` is
the bag of `messages` rows of the conversation; `window` is
`config.CONTEXT_WINDOW_MESSAGES`. -/
def getConversationContext (rows : List MsgRow) (window : Nat) : List ContextEntry :=
  let fetched := orderByCreatedDescLimit rows window
  let chrono := fetched.reverse.map toContextEntry
  if fetched.length = window then truncationWarning :: chrono else chrono

/-- The specification's description of `windowedContext(C, N)` (claim
C1), written independently of the implementation: the at-most-N most
recent messages in chronological order — i.e. the length-`min N len`
suffix of the ascending ordering — with the synthetic system preamble
prepended exactly when N messages were available. -/
def specWindowedContext (rows : List MsgRow) (window : Nat) : List ContextEntry :=
  (if window ≤ rows.length then [truncationWarning] else []) ++
    ((orderByCreatedAsc rows).drop (rows.length - window)).map toContextEntry

theorem length_orderByCreatedAsc (rows : List MsgRow) :
    (orderByCreatedAsc rows).length = rows.length :=
  List.length_insertionSort msgLe rows

theorem fetched_reverse_eq (rows : List MsgRow) (window : Nat) :
    (orderByCreatedDescLimit rows window).reverse =
      (orderByCreatedAsc rows).drop (rows.length - window) := by
  unfold orderByCreatedDescLimit
  rw [List.take_reverse, List.reverse_reverse, length_orderByCreatedAsc]

theorem length_orderByCreatedDescLimit (rows : List MsgRow) (window : Nat) :
    (orderByCreatedDescLimit rows window).length = min window rows.length := by
  unfold orderByCreatedDescLimit
  rw [List.length_take, List.length_reverse, length_orderByCreatedAsc]

/-- Claim C1: for every conversation and window size `N`,
`getConversationContext` returns at most `N + 1` entries, equal to the
spec-side `windowedContext`: the at-most-N most recent messages in
chronological (creation-time ascending) order, with the synthetic system
preamble prepended if and only if exactly N messages were fetched
(equivalently, iff the conversation holds at least N messages); the
total length is `min N len` real entries plus the optional preamble. -/
theorem getConversationContext_spec (rows : List MsgRow) (window : Nat) :
    getConversationContext rows window = specWindowedContext rows window ∧
    (getConversationContext rows window).length ≤ window + 1 ∧
    (getConversationContext rows window).length =
      min window rows.length + (if window ≤ rows.length then 1 else 0) ∧
    List.Sorted msgLe ((orderByCreatedAsc rows).drop (rows.length - window)) := by
  have hfetch := length_orderByCreatedDescLimit rows window
  have hcond : ((orderByCreatedDescLimit rows window).length = window)
      ↔ window ≤ rows.length := by
    rw [hfetch]
    omega
  have heq : getConversationContext rows window = specWindowedContext rows window := by
    unfold getConversationContext specWindowedContext
    rw [← fetched_reverse_eq rows window]
    by_cases h : window ≤ rows.length
    · rw [if_pos (hcond.mpr h), if_pos h]
      simp
    · rw [if_neg (fun hw => h (hcond.mp hw)), if_neg h]
      simp
  have hlen : (specWindowedContext rows window).length =
      min window rows.length + (if window ≤ rows.length then 1 else 0) := by
    unfold specWindowedContext
    rw [List.length_append, List.length_map, List.length_drop, length_orderByCreatedAsc]
    by_cases h : window ≤ rows.length
    · rw [if_pos h, if_pos h]
      simp only [List.length_cons, List.length_nil]
      omega
    · rw [if_neg h, if_neg h]
      simp only [List.length_nil]
      omega
  refine ⟨heq, ?_, ?_, ?_⟩
  · rw [heq, hlen]
    by_cases h : window ≤ rows.length
    · rw [if_pos h]; omega
    · rw [if_neg h]; omega
  · rw [heq, hlen]
  · exact List.Pairwise.sublist (List.drop_sublist _ _)
      (List.sorted_insertionSort msgLe rows)

/-- Embedding of `messages.findByConversation` from
`src/database/index.js`:

    SELECT m.* FROM messages m
    JOIN conversations c ON m.conversation_id = c.id
    WHERE m.conversation_id = ? AND c.user_id = ?
    ORDER BY m.created_at ASC

The inner join is modelled literally: every message row is paired with every
conversation row satisfying the join condition and the WHERE clause, and
the joined rows are then ordered by creation time. -/
def findByConversation (convs : List ConvRow) (msgs : List MsgRow)
    (conversationId userId : Nat) : List MsgRow :=
  List.insertionSort msgLe
    (msgs.flatMap (fun m =>
      (convs.filter (fun c =>
        m.conversation_id == c.id && m.conversation_id == conversationId
          && c.user_id == userId)).map (fun _ => m)))

/-- Ownership of a conversation row: some conversation with the given id
belongs to the given user. -/
def ownsConversation (convs : List ConvRow) (conversationId userId : Nat) : Prop :=
  ∃ c ∈ convs, c.id = conversationId ∧ c.user_id = userId

instance (convs : List ConvRow) (cid uid : Nat) :
    Decidable (ownsConversation convs cid uid) :=
  List.decidableBEx _ convs

theorem join_inner_char (convs : List ConvRow)
    (hnd : (convs.map ConvRow.id).Nodup) (cid uid : Nat) (m : MsgRow) :
    (convs.filter (fun c =>
        m.conversation_id == c.id && m.conversation_id == cid
          && c.user_id == uid)).map (fun _ => m)
      = if m.conversation_id = cid ∧ ownsConversation convs cid uid
        then [m] else [] := by
  induction convs with
  | nil => simp [ownsConversation]
  | cons c cs ih =>
    rw [List.map_cons] at hnd
    obtain ⟨hid, hnd2⟩ := List.nodup_cons.mp hnd
    rw [List.filter_cons]
    by_cases hp : (m.conversation_id == c.id && m.conversation_id == cid
        && c.user_id == uid) = true
    · rw [if_pos hp]
      obtain ⟨⟨h1, h2⟩, h3⟩ : (m.conversation_id = c.id ∧ m.conversation_id = cid)
          ∧ c.user_id = uid := by simpa using hp
      -- `Nodup` on the ids rules out a second row with the same id
      have hrest : List.filter (fun x => m.conversation_id == x.id
          && m.conversation_id == cid && x.user_id == uid) cs = [] := by
        rw [List.filter_eq_nil_iff]
        intro x hx hxp
        obtain ⟨⟨g1, _⟩, _⟩ : (m.conversation_id = x.id ∧ m.conversation_id = cid)
            ∧ x.user_id = uid := by simpa using hxp
        apply hid
        have hxid : x.id = c.id := by rw [← g1, h1]
        exact hxid ▸ List.mem_map_of_mem ConvRow.id hx
      rw [hrest, List.map_cons, List.map_nil, if_pos]
      exact ⟨h2, c, List.mem_cons_self c cs, by rw [← h1, h2], h3⟩
    · rw [if_neg hp, ih hnd2]
      by_cases hq : m.conversation_id = cid ∧ ownsConversation cs cid uid
      · rw [if_pos hq, if_pos]
        obtain ⟨hm, x, hx, hxp⟩ := hq
        exact ⟨hm, x, List.mem_cons_of_mem c hx, hxp⟩
      · rw [if_neg hq, if_neg]
        rintro ⟨hm, x, hx, hx1, hx2⟩
        rcases List.mem_cons.mp hx with rfl | hxcs
        · exact hp (by simp [hm, hx1, hx2])
        · exact hq ⟨hm, x, hxcs, hx1, hx2⟩

theorem flatMap_guard_eq_filter (msgs : List MsgRow) (p : MsgRow → Bool) :
    (msgs.flatMap (fun m => if p m then [m] else [])) = msgs.filter p := by
  induction msgs with
  | nil => rfl
  | cons a l ih =>
    rw [List.flatMap_cons, List.filter_cons, ih]
    by_cases h : p a = true
    · rw [if_pos h, if_pos h]
      rfl
    · rw [if_neg h, if_neg h]
      rfl

/-- Claim C5: `messages.findByConversation` returns the messages of the
conversation in creation-time ascending order when the conversation is
owned by the user, the empty list when it is missing or owned by another
user, and every row it ever returns belongs to a conversation owned by
the requesting user.  The hypothesis is the `conversations` primary-key
invariant (distinct ids). -/
theorem findByConversation_spec (convs : List ConvRow) (msgs : List MsgRow)
    (cid uid : Nat) (hnd : (convs.map ConvRow.id).Nodup) :
    (ownsConversation convs cid uid →
      findByConversation convs msgs cid uid =
        orderByCreatedAsc (msgs.filter (fun m => m.conversation_id == cid))) ∧
    (¬ ownsConversation convs cid uid →
      findByConversation convs msgs cid uid = []) ∧
    (∀ m ∈ findByConversation convs msgs cid uid,
      m.conversation_id = cid ∧ ownsConversation convs m.conversation_id uid) ∧
    List.Sorted msgLe (findByConversation convs msgs cid uid) := by
  refine ⟨?_, ?_, ?_, ?_⟩
  · intro h
    unfold findByConversation orderByCreatedAsc
    congr 1
    have hf : (fun m : MsgRow => (convs.filter (fun c =>
        m.conversation_id == c.id && m.conversation_id == cid
          && c.user_id == uid)).map (fun _ => m))
        = fun m => if (m.conversation_id == cid) = true then [m] else [] := by
      funext m
      rw [join_inner_char convs hnd cid uid m]
      by_cases hm : m.conversation_id = cid
      · rw [if_pos ⟨hm, h⟩, if_pos (by simpa using hm)]
      · rw [if_neg (fun hh => hm hh.1), if_neg (by simpa using hm)]
    rw [hf, flatMap_guard_eq_filter msgs (fun m => m.conversation_id == cid)]
  · intro h
    unfold findByConversation
    have hf : (fun m : MsgRow => (convs.filter (fun c =>
        m.conversation_id == c.id && m.conversation_id == cid
          && c.user_id == uid)).map (fun _ => m))
        = fun _ => ([] : List MsgRow) := by
      funext m
      rw [join_inner_char convs hnd cid uid m, if_neg (fun hh => h hh.2)]
    rw [hf]
    have : msgs.flatMap (fun _ => ([] : List MsgRow)) = [] := by
      induction msgs with
      | nil => rfl
      | cons a l ih => rw [List.flatMap_cons, ih]; rfl
    rw [this]
    rfl
  · intro m hm
    unfold findByConversation at hm
    rw [List.mem_insertionSort] at hm
    obtain ⟨a, _, hma⟩ := List.mem_flatMap.mp hm
    rw [join_inner_char convs hnd cid uid a] at hma
    by_cases hc : a.conversation_id = cid ∧ ownsConversation convs cid uid
    · rw [if_pos hc] at hma
      rcases List.mem_singleton.mp hma with rfl
      exact ⟨hc.1, hc.1 ▸ hc.2⟩
    · rw [if_neg hc] at hma
      exact absurd hma (List.not_mem_nil m)
  · exact List.sorted_insertionSort msgLe _

/-- Concrete conversations table used by witnesses: conversation 1 owned
by user 10, conversation 2 owned by user 20. -/
def convsW : List ConvRow :=
  [⟨1, 10, "alpha", 0, 0⟩, ⟨2, 20, "beta", 0, 0⟩]

/-- Concrete messages table used by witnesses. -/
def msgsW : List MsgRow :=
  [⟨1, 1, Role.user, "hi", none, 5⟩,
   ⟨2, 2, Role.user, "yo", none, 3⟩,
   ⟨3, 1, Role.assistant, "hello", some "llama3.2:3b", 7⟩]

/-- Witness for claim C5 at a concrete database state: the primary-key
hypothesis holds, user 10 owns conversation 1, the listing equals the
ordered filter, and it evaluates to the two rows of conversation 1 in
ascending creation order. -/
theorem findByConversation_spec_witness :
    (convsW.map ConvRow.id).Nodup ∧
    ownsConversation convsW 1 10 ∧
    findByConversation convsW msgsW 1 10 =
      orderByCreatedAsc (msgsW.filter (fun m => m.conversation_id == 1)) ∧
    findByConversation convsW msgsW 1 10 =
      [⟨1, 1, Role.user, "hi", none, 5⟩,
       ⟨3, 1, Role.assistant, "hello", some "llama3.2:3b", 7⟩] :=
  ⟨by decide, by decide,
   (findByConversation_spec convsW msgsW 1 10 (by decide)).1 (by decide),
   by decide⟩

/-- The backtick character (code 96), written by code point to keep the
source free of literal backticks. -/
def backtick : Char := Char.ofNat 96

/-- The apostrophe character (code 39). -/
def apostrophe : Char := Char.ofNat 39

/-- JavaScript `String.prototype.trim`: drop leading and trailing
whitespace.  JS `\s` also covers a few exotic Unicode space characters
beyond `Char.isWhitespace`; none occur in the modelled data. -/
def jsTrim (s : String) : String :=
  ⟨((s.data.dropWhile Char.isWhitespace).reverse.dropWhile Char.isWhitespace).reverse⟩

/-- Maximal runs of non-whitespace characters, in order.  The fuel is
set to `length + 1` by the wrapper and is never exhausted, since every
step consumes at least one character. -/
def splitWsWords : Nat → List Char → List String
  | 0, _ => []
  | _ + 1, [] => []
  | fuel + 1, c :: rest =>
      if Char.isWhitespace c then splitWsWords fuel rest
      else
        ⟨(c :: rest).takeWhile (fun x => ¬ Char.isWhitespace x)⟩ ::
          splitWsWords fuel ((c :: rest).dropWhile (fun x => ¬ Char.isWhitespace x))

/-- JavaScript `s.trim().split(/\s+/)` as used by
`generateConversationTitle`.  On a whitespace-only string the JS split
returns `[""]` (a single empty chunk, since the regex never matches the
empty trimmed string); otherwise it returns the whitespace-separated
words with no empty chunks, because the trimmed string neither starts
nor ends with whitespace. -/
def jsSplitWs (s : String) : List String :=
  let t := jsTrim s
  if t = "" then [""] else splitWsWords (t.data.length + 1) t.data

/-
The `extractPlainText` regex replacements are embedded as recursive
scanners over `List Char`.  Each scanner mirrors the corresponding
JavaScript `String.prototype.replace(regex, ...)` call: it looks for the
leftmost match, emits the replacement, continues after the match, and on
a failed match at the current position advances by one character —
exactly the backtracking-free behaviour of the character-class regexes
used in the source.  Every scanner consumes at least one character of
input per step, so the recursion is driven by a fuel argument set to
`length + 1`, which is never exhausted; the fuel-zero branch is dead
code required for totality.
-/

/-- Position after the first occurrence of three consecutive backticks,
i.e. where the lazy `/[code-fence][\s\S]*?[code-fence]/` match ends. -/
def dropToTripleTick : List Char → Option (List Char)
  | c1 :: c2 :: c3 :: rest =>
      if c1 = backtick ∧ c2 = backtick ∧ c3 = backtick then some rest
      else dropToTripleTick (c2 :: c3 :: rest)
  | _ => none

/-- Replacement of fenced code blocks by the literal text `[code]`. -/
def stripCodeBlocksAux : Nat → List Char → List Char
  | 0, l => l
  | fuel + 1, c1 :: c2 :: c3 :: rest =>
      if c1 = backtick ∧ c2 = backtick ∧ c3 = backtick then
        match dropToTripleTick rest with
        | some rest2 =>
            '[' :: 'c' :: 'o' :: 'd' :: 'e' :: ']' :: stripCodeBlocksAux fuel rest2
        | none => c1 :: stripCodeBlocksAux fuel (c2 :: c3 :: rest)
      else c1 :: stripCodeBlocksAux fuel (c2 :: c3 :: rest)
  | _ + 1, l => l

def stripCodeBlocks (l : List Char) : List Char :=
  stripCodeBlocksAux (l.length + 1) l

/-- Removal of inline-code backticks, keeping the non-empty inner text. -/
def stripInlineCodeAux : Nat → List Char → List Char
  | 0, l => l
  | _ + 1, [] => []
  | fuel + 1, c :: rest =>
      if c = backtick then
        match rest.takeWhile (fun x => x ≠ backtick),
              rest.dropWhile (fun x => x ≠ backtick) with
        | inner@(_ :: _), _ :: after2 => inner ++ stripInlineCodeAux fuel after2
        | _, _ => c :: stripInlineCodeAux fuel rest
      else c :: stripInlineCodeAux fuel rest

def stripInlineCode (l : List Char) : List Char :=
  stripInlineCodeAux (l.length + 1) l

/-- Removal of bold markers `**...**`, keeping the inner text. -/
def stripBoldAux : Nat → List Char → List Char
  | 0, l => l
  | fuel + 1, c1 :: c2 :: rest =>
      if c1 = '*' ∧ c2 = '*' then
        match rest.takeWhile (fun x => x ≠ '*'),
              rest.dropWhile (fun x => x ≠ '*') with
        | inner@(_ :: _), _ :: a2 :: after2 =>
            if a2 = '*' then inner ++ stripBoldAux fuel after2
            else c1 :: stripBoldAux fuel (c2 :: rest)
        | _, _ => c1 :: stripBoldAux fuel (c2 :: rest)
      else c1 :: stripBoldAux fuel (c2 :: rest)
  | _ + 1, l => l

def stripBold (l : List Char) : List Char :=
  stripBoldAux (l.length + 1) l

/-- Removal of italic markers `*...*`, keeping the inner text. -/
def stripItalicAux : Nat → List Char → List Char
  | 0, l => l
  | _ + 1, [] => []
  | fuel + 1, c :: rest =>
      if c = '*' then
        match rest.takeWhile (fun x => x ≠ '*'),
              rest.dropWhile (fun x => x ≠ '*') with
        | inner@(_ :: _), _ :: after2 => inner ++ stripItalicAux fuel after2
        | _, _ => c :: stripItalicAux fuel rest
      else c :: stripItalicAux fuel rest

def stripItalic (l : List Char) : List Char :=
  stripItalicAux (l.length + 1) l

/-- Replacement of markdown links by their link text. -/
def stripLinksAux : Nat → List Char → List Char
  | 0, l => l
  | _ + 1, [] => []
  | fuel + 1, c :: rest =>
      if c = '[' then
        match rest.takeWhile (fun x => x ≠ ']'),
              rest.dropWhile (fun x => x ≠ ']') with
        | txt@(_ :: _), _ :: p1 :: rest2 =>
            if p1 = '(' then
              match rest2.takeWhile (fun x => x ≠ ')'),
                    rest2.dropWhile (fun x => x ≠ ')') with
              | _ :: _, _ :: after2 => txt ++ stripLinksAux fuel after2
              | _, _ => c :: stripLinksAux fuel rest
            else c :: stripLinksAux fuel rest
        | _, _ => c :: stripLinksAux fuel rest
      else c :: stripLinksAux fuel rest

def stripLinks (l : List Char) : List Char :=
  stripLinksAux (l.length + 1) l

/-- Removal of header markers: a run of `#` and any following
whitespace. -/
def stripHeadersAux : Nat → List Char → List Char
  | 0, l => l
  | _ + 1, [] => []
  | fuel + 1, c :: rest =>
      if c = '#' then
        stripHeadersAux fuel
          ((rest.dropWhile (fun x => x = '#')).dropWhile Char.isWhitespace)
      else c :: stripHeadersAux fuel rest

def stripHeaders (l : List Char) : List Char :=
  stripHeadersAux (l.length + 1) l

/-- Removal of blockquote markers: `>` and any following whitespace. -/
def stripBlockquotesAux : Nat → List Char → List Char
  | 0, l => l
  | _ + 1, [] => []
  | fuel + 1, c :: rest =>
      if c = '>' then
        stripBlockquotesAux fuel (rest.dropWhile Char.isWhitespace)
      else c :: stripBlockquotesAux fuel rest

def stripBlockquotes (l : List Char) : List Char :=
  stripBlockquotesAux (l.length + 1) l

/-- Removal of list markers: one of `-`, `*`, `+` and any following
whitespace. -/
def stripListMarkersAux : Nat → List Char → List Char
  | 0, l => l
  | _ + 1, [] => []
  | fuel + 1, c :: rest =>
      if c = '-' ∨ c = '*' ∨ c = '+' then
        stripListMarkersAux fuel (rest.dropWhile Char.isWhitespace)
      else c :: stripListMarkersAux fuel rest

def stripListMarkers (l : List Char) : List Char :=
  stripListMarkersAux (l.length + 1) l

/-- Replacement of every newline run by a single space. -/
def collapseNewlinesAux : Nat → List Char → List Char
  | 0, l => l
  | _ + 1, [] => []
  | fuel + 1, c :: rest =>
      if c = '\n' then
        ' ' :: collapseNewlinesAux fuel (rest.dropWhile (fun x => x = '\n'))
      else c :: collapseNewlinesAux fuel rest

def collapseNewlines (l : List Char) : List Char :=
  collapseNewlinesAux (l.length + 1) l

/-- Embedding of `extractPlainText` from the content module: the chain
of markdown-stripping replacements followed by a trim; the JS guard
`if (!markdown) return ''` is the empty-string test.  The surrounding
try/catch is dead code — none of the string operations throw. -/
def extractPlainText (markdown : String) : String :=
  if markdown = "" then ""
  else
    jsTrim ⟨collapseNewlines (stripListMarkers (stripBlockquotes (stripHeaders
      (stripLinks (stripItalic (stripBold (stripInlineCode
        (stripCodeBlocks markdown.data))))))))⟩

/-- Embedding of `escapeHtml` from the content module: the character
map applied by `text.replace(/[&<>"']/g, ...)`. -/
def escapeHtmlChar (c : Char) : List Char :=
  if c = '&' then "&amp;".data
  else if c = '<' then "&lt;".data
  else if c = '>' then "&gt;".data
  else if c = '"' then "&quot;".data
  else if c = apostrophe then "&#039;".data
  else [c]

def escapeHtml (text : String) : String :=
  ⟨text.data.flatMap escapeHtmlChar⟩

/-- Embedding of `generateConversationTitle` from the chat handler
module.  Lengths and `substring` count Unicode code points where JS
counts UTF-16 units; the two agree on all material in this development. -/
def generateConversationTitle (content : String) : String :=
  let plainText := extractPlainText content
  let words := jsSplitWs plainText
  if words.length ≤ 5 then
    if plainText.length > 50 then (plainText.take 50) ++ "..." else plainText
  else
    (String.intercalate " " (words.take 5)) ++ "..."

set_option maxRecDepth 40000

/-- The markdown-free message used against the 50-character cap claimed
in C4: six words of twenty characters each (125 characters total). -/
def longTitleInput : String :=
  "aaaaaaaaaaaaaaaaaaaa aaaaaaaaaaaaaaaaaaaa aaaaaaaaaaaaaaaaaaaa aaaaaaaaaaaaaaaaaaaa aaaaaaaaaaaaaaaaaaaa aaaaaaaaaaaaaaaaaaaa"

/-- Counterexample to claim C4 as stated: on a six-word message whose
words are twenty characters long, the generated title keeps the first
five words joined plus the ellipsis — 107 characters — so the title is
not truncated to 50 characters (not even granting the three ellipsis
characters on top).  The 50-character cap of the source only guards the
at-most-five-words branch. -/
theorem generateConversationTitle_counterexample :
    (generateConversationTitle longTitleInput).length = 107 ∧
    50 + 3 < (generateConversationTitle longTitleInput).length :=
  ⟨by decide, by decide⟩

/-- Claim C4, amended: the conversation title is derived from the
markdown-stripped message; when the stripped text has at most five
words it is the stripped text, truncated to 50 characters with an
ellipsis appended exactly when it was cut; when it has more than five
words it is the first five words joined by single spaces plus an
ellipsis, with no 50-character cap applied on that branch.  A message
like "Hello" yields the stripped text unchanged. -/
theorem generateConversationTitle_amended (content : String) :
    ((jsSplitWs (extractPlainText content)).length ≤ 5 →
      generateConversationTitle content =
        (if 50 < (extractPlainText content).length
         then (extractPlainText content).take 50 ++ "..."
         else extractPlainText content)) ∧
    (5 < (jsSplitWs (extractPlainText content)).length →
      generateConversationTitle content =
        String.intercalate " " ((jsSplitWs (extractPlainText content)).take 5) ++ "...") ∧
    generateConversationTitle "Hello" = "Hello" := by
  refine ⟨?_, ?_, by decide⟩
  · intro h
    simp only [generateConversationTitle]
    rw [if_pos h]
  · intro h
    simp only [generateConversationTitle]
    rw [if_neg (by omega)]

/-- Witness for the amended claim C4 at the concrete message "Hello":
one word, no truncation, title equals the stripped text. -/
theorem generateConversationTitle_amended_witness :
    (jsSplitWs (extractPlainText "Hello")).length ≤ 5 ∧
    generateConversationTitle "Hello" =
      (if 50 < (extractPlainText "Hello").length
       then (extractPlainText "Hello").take 50 ++ "..."
       else extractPlainText "Hello") :=
  ⟨by decide, (generateConversationTitle_amended "Hello").1 (by decide)⟩

/-- Default `config.LLM_MODEL`. -/
def llmModel : String := "llama3.2:3b"

/-- The canned reply persisted and returned when the availability probe
fails (`Ollama not running`), echoing the user message. -/
def unavailableEcho (message : String) : String :=
  "Sorry, the AI service is currently unavailable. (Ollama not running)\n\nEcho: " ++ message

/-- The SSE error text written by the streaming handler's catch block. -/
def streamErrorText (e : String) : String :=
  "Sorry, I encountered an error: " ++ e

/-- The error text persisted and returned by the non-streaming handler's
catch block. -/
def chatErrorText (e : String) : String :=
  "Sorry, I encountered an error processing your request. Please try again.\n\nError: " ++ e

/-- One awaited call issued by a chat handler, in program order:
database writes and reads, and the two upstream Ollama calls (the
`ollama.list()` availability probe and the `ollama.chat` invocation). -/
inductive CallEvent where
  | createConv (userId : Nat) (title : String)
  | saveMsg (conversationId : Nat) (role : Role) (content : String) (model : Option String)
  | getContext (conversationId : Nat)
  | probe
  | chatCall
  | updateTs (conversationId : Nat)
deriving DecidableEq

/-- Server-sent events written by the streaming handler (the `type`
field of each `data:` frame, with its content payload). -/
inductive SseEvent where
  | start
  | content (chunk : String)
  | done
  | error (message : String)
deriving DecidableEq

deriving instance DecidableEq for Except

/-- Outcome of every awaited I/O call a chat handler may perform: a
`false` flag means the corresponding promise rejects (with
`error.message = dbErr` for database calls), sending control to the
enclosing catch block.  `checkOllamaAvailability` never rejects — it
catches internally and returns a boolean.  `chatResult` is the
`ollama.chat` outcome: an error message or the complete assistant reply
(the token chunks of a streamed reply are modelled as one chunk). -/
structure ChatEnv where
  newConvId : Nat
  createOk : Bool
  saveUserOk : Bool
  contextOk : Bool
  ollamaAvailable : Bool
  saveEchoOk : Bool
  echoBumpOk : Bool
  chatResult : Except String String
  saveAssistantOk : Bool
  bumpOk : Bool
  catchSaveOk : Bool
  dbErr : String
deriving DecidableEq

/-- The request body `{ message, conversationId }`.  `message = none`
stands for an absent, null or undefined field; note the JS guard
`!message` also fires on the empty string, whose trim is equally
empty. -/
structure ChatRequest where
  message : Option String
  conversationId : Option Nat
deriving DecidableEq

/-- The validation guard `!message || message.trim().length === 0`
shared by both handlers. -/
def emptyMessage : Option String → Bool
  | none => true
  | some s => jsTrim s = ""

/-- Result of the streaming handler: the HTTP status (400 on validation
failure, otherwise 200 with an SSE stream), the SSE events written, and
the trace of awaited calls issued. -/
structure StreamResult where
  status : Nat
  sse : List SseEvent
  trace : List CallEvent
deriving DecidableEq

/-- JSON response of the non-streaming handler (the constant `user`
field is omitted). -/
inductive JsonBody where
  | validationError (msg : String)
  | reply (response : String) (model : Option String) (conversationId : Option Nat)
deriving DecidableEq

/-- Result of the non-streaming handler. -/
structure ChatResult where
  status : Nat
  body : JsonBody
  trace : List CallEvent
deriving DecidableEq

/-- Continuation of `handleChatStream` after the conversation id is
resolved to `cid` (`t0` is the trace so far): save the user turn, build
the windowed context, probe availability, then either persist the
canned unavailable reply or stream from `ollama.chat` and persist the
assistant turn; any rejected promise falls to the catch block, which
writes an SSE `error` event and ends the stream. -/
def handleChatStreamBody (env : ChatEnv) (cid : Nat) (message : String)
    (t0 : List CallEvent) : StreamResult :=
  let t1 := t0 ++ [CallEvent.saveMsg cid Role.user message none]
  if ¬ env.saveUserOk then ⟨200, [SseEvent.error (streamErrorText env.dbErr)], t1⟩
  else
    let t2 := t1 ++ [CallEvent.getContext cid]
    if ¬ env.contextOk then ⟨200, [SseEvent.error (streamErrorText env.dbErr)], t2⟩
    else
      let t3 := t2 ++ [CallEvent.probe]
      if ¬ env.ollamaAvailable then
        let t4 := t3 ++ [CallEvent.saveMsg cid Role.assistant (unavailableEcho message) none]
        if ¬ env.saveEchoOk then ⟨200, [SseEvent.error (streamErrorText env.dbErr)], t4⟩
        else
          let t5 := t4 ++ [CallEvent.updateTs cid]
          if ¬ env.echoBumpOk then ⟨200, [SseEvent.error (streamErrorText env.dbErr)], t5⟩
          else ⟨200, [SseEvent.error (unavailableEcho message)], t5⟩
      else
        let t4 := t3 ++ [CallEvent.chatCall]
        match env.chatResult with
        | Except.error e => ⟨200, [SseEvent.start, SseEvent.error (streamErrorText e)], t4⟩
        | Except.ok reply =>
          let t5 := t4 ++ [CallEvent.saveMsg cid Role.assistant reply (some llmModel)]
          if ¬ env.saveAssistantOk then
            ⟨200, [SseEvent.start, SseEvent.content reply,
                   SseEvent.error (streamErrorText env.dbErr)], t5⟩
          else
            let t6 := t5 ++ [CallEvent.updateTs cid]
            if ¬ env.bumpOk then
              ⟨200, [SseEvent.start, SseEvent.content reply,
                     SseEvent.error (streamErrorText env.dbErr)], t6⟩
            else ⟨200, [SseEvent.start, SseEvent.content reply, SseEvent.done], t6⟩

/-- Embedding of `handleChatStream`: validate the message, set up the
SSE stream, resolve the conversation (creating one titled from the
message when no id was supplied), and continue with
`handleChatStreamBody`.  Its catch block only writes an SSE `error`
event — it persists nothing. -/
def handleChatStream (env : ChatEnv) (userId : Nat) (req : ChatRequest) : StreamResult :=
  match req.message with
  | none => ⟨400, [], []⟩
  | some message =>
    if jsTrim message = "" then ⟨400, [], []⟩
    else
      match req.conversationId with
      | some cid => handleChatStreamBody env cid message []
      | none =>
        let t0 : List CallEvent :=
          [CallEvent.createConv userId (generateConversationTitle message)]
        if env.createOk then handleChatStreamBody env env.newConvId message t0
        else ⟨200, [SseEvent.error (streamErrorText env.dbErr)], t0⟩

/-- The catch block of `handleChat`: when a conversation id is in scope
it tries to persist the error text as the assistant turn and bump the
conversation, swallowing any failure of that inner attempt (the
`updateTimestamp` call is only reached when the save resolved), then
responds with the error text in a 200 JSON body. -/
def handleChatCatch (env : ChatEnv) (convId : Option Nat) (e : String)
    (tr : List CallEvent) : ChatResult :=
  match convId with
  | none => ⟨200, JsonBody.reply (chatErrorText e) none none, tr⟩
  | some cid =>
    let tr1 := tr ++ [CallEvent.saveMsg cid Role.assistant (chatErrorText e) none]
    if ¬ env.catchSaveOk then ⟨200, JsonBody.reply (chatErrorText e) none (some cid), tr1⟩
    else ⟨200, JsonBody.reply (chatErrorText e) none (some cid),
          tr1 ++ [CallEvent.updateTs cid]⟩

/-- Continuation of `handleChat` after the conversation id is resolved
to `cid`: the same sequence as the streaming body, with rejected
promises routed to `handleChatCatch`. -/
def handleChatBody (env : ChatEnv) (cid : Nat) (message : String)
    (t0 : List CallEvent) : ChatResult :=
  let t1 := t0 ++ [CallEvent.saveMsg cid Role.user message none]
  if ¬ env.saveUserOk then handleChatCatch env (some cid) env.dbErr t1
  else
    let t2 := t1 ++ [CallEvent.getContext cid]
    if ¬ env.contextOk then handleChatCatch env (some cid) env.dbErr t2
    else
      let t3 := t2 ++ [CallEvent.probe]
      if ¬ env.ollamaAvailable then
        let t4 := t3 ++ [CallEvent.saveMsg cid Role.assistant (unavailableEcho message) none]
        if ¬ env.saveEchoOk then handleChatCatch env (some cid) env.dbErr t4
        else
          let t5 := t4 ++ [CallEvent.updateTs cid]
          if ¬ env.echoBumpOk then handleChatCatch env (some cid) env.dbErr t5
          else ⟨200, JsonBody.reply (unavailableEcho message) none (some cid), t5⟩
      else
        let t4 := t3 ++ [CallEvent.chatCall]
        match env.chatResult with
        | Except.error e => handleChatCatch env (some cid) e t4
        | Except.ok reply =>
          let t5 := t4 ++ [CallEvent.saveMsg cid Role.assistant reply (some llmModel)]
          if ¬ env.saveAssistantOk then handleChatCatch env (some cid) env.dbErr t5
          else
            let t6 := t5 ++ [CallEvent.updateTs cid]
            if ¬ env.bumpOk then handleChatCatch env (some cid) env.dbErr t6
            else ⟨200, JsonBody.reply reply (some llmModel) (some cid), t6⟩

/-- Embedding of `handleChat` (the non-streaming fallback). -/
def handleChat (env : ChatEnv) (userId : Nat) (req : ChatRequest) : ChatResult :=
  match req.message with
  | none => ⟨400, JsonBody.validationError "Message cannot be empty", []⟩
  | some message =>
    if jsTrim message = "" then ⟨400, JsonBody.validationError "Message cannot be empty", []⟩
    else
      match req.conversationId with
      | some cid => handleChatBody env cid message []
      | none =>
        let t0 : List CallEvent :=
          [CallEvent.createConv userId (generateConversationTitle message)]
        if env.createOk then handleChatBody env env.newConvId message t0
        else handleChatCatch env none env.dbErr t0

/-- Recognises a persisted user turn. -/
def isUserSave : CallEvent → Bool
  | CallEvent.saveMsg _ Role.user _ _ => true
  | _ => false

/-- Recognises a persisted assistant turn. -/
def isAssistantSave : CallEvent → Bool
  | CallEvent.saveMsg _ Role.assistant _ _ => true
  | _ => false

/-- Recognises any `messages.save` insert. -/
def isSaveEvent : CallEvent → Bool
  | CallEvent.saveMsg _ _ _ _ => true
  | _ => false

/-- Recognises a `conversations.updateTimestamp` call. -/
def isUpdateTsEvent : CallEvent → Bool
  | CallEvent.updateTs _ => true
  | _ => false

/-- Recognises the calls that reach the upstream completion service:
the availability probe (`ollama.list`) and the chat invocation
(`ollama.chat`). -/
def isUpstream : CallEvent → Bool
  | CallEvent.probe => true
  | CallEvent.chatCall => true
  | _ => false

/-- Ordering property of a handler trace: no upstream call occurs
before the first successful persist of the user turn (equivalently,
the prefix strictly before the first user-turn save contains no
upstream call; when the trace has no user-turn save at all, the
whole trace must be upstream-free). -/
def userSavedFirst (tr : List CallEvent) : Prop :=
  ∀ e ∈ tr.takeWhile (fun x => !(isUserSave x)), isUpstream e = false

theorem userSavedFirst_shape (pre : List CallEvent) (c : Nat) (m : String)
    (mo : Option String) (rest : List CallEvent)
    (hpre : ∀ e ∈ pre, isUpstream e = false) :
    userSavedFirst (pre ++ CallEvent.saveMsg c Role.user m mo :: rest) := by
  unfold userSavedFirst
  induction pre with
  | nil =>
    intro e he
    simp [List.takeWhile, isUserSave] at he
  | cons a pre ih =>
    intro e he
    rw [List.cons_append, List.takeWhile_cons] at he
    by_cases ha : isUserSave a = true
    · rw [ha] at he
      simp at he
    · rw [Bool.not_eq_true] at ha
      rw [ha] at he
      simp only [Bool.not_false, if_pos] at he
      rcases List.mem_cons.mp he with rfl | he2
      · exact hpre e (List.mem_cons_self e pre)
      · exact ih (fun x hx => hpre x (List.mem_cons_of_mem a hx)) e he2

theorem userSavedFirst_noUpstream (tr : List CallEvent)
    (h : ∀ e ∈ tr, isUpstream e = false) : userSavedFirst tr :=
  fun e he => h e (List.Sublist.subset (List.takeWhile_sublist _) he)

theorem userSavedFirst_shape_all (pre : List CallEvent) (c : Nat) (m : String)
    (mo : Option String) (rest : List CallEvent)
    (hpre : pre.all (fun e => !(isUpstream e)) = true) :
    userSavedFirst (pre ++ CallEvent.saveMsg c Role.user m mo :: rest) :=
  userSavedFirst_shape pre c m mo rest (fun e he => by
    simpa using List.all_eq_true.mp hpre e he)

theorem userSavedFirst_noUpstream_all (tr : List CallEvent)
    (h : tr.all (fun e => !(isUpstream e)) = true) : userSavedFirst tr :=
  userSavedFirst_noUpstream tr (fun e he => by
    simpa using List.all_eq_true.mp h e he)

set_option maxHeartbeats 2000000 in
/-- Claim C2: in both chat handlers, in every execution, the user turn
is persisted before any upstream call (the availability probe or the
chat invocation) is attempted: the trace prefix before the first
user-turn save contains no upstream call, so an upstream call can only
ever run once `messages.save` of the user message has resolved. -/
theorem userTurn_saved_before_upstream (env : ChatEnv) (userId : Nat)
    (req : ChatRequest) :
    userSavedFirst (handleChatStream env userId req).trace ∧
    userSavedFirst (handleChat env userId req).trace := by
  obtain ⟨msg, cidOpt⟩ := req
  constructor
  · match msg with
    | none => intro e he; simp [handleChatStream] at he
    | some message =>
      simp only [handleChatStream]
      by_cases hv : jsTrim message = ""
      · rw [if_pos hv]
        intro e he
        simp at he
      · rw [if_neg hv]
        unfold handleChatStreamBody
        repeat' split
        all_goals
          first
          | exact userSavedFirst_shape_all [] _ _ _ _ (by rfl)
          | exact userSavedFirst_shape_all
              [CallEvent.createConv userId (generateConversationTitle message)] _ _ _ _ (by rfl)
          | exact userSavedFirst_noUpstream_all _ (by rfl)
  · match msg with
    | none => intro e he; simp [handleChat] at he
    | some message =>
      simp only [handleChat]
      by_cases hv : jsTrim message = ""
      · rw [if_pos hv]
        intro e he
        simp at he
      · rw [if_neg hv]
        unfold handleChatBody handleChatCatch
        repeat' split
        all_goals
          first
          | exact userSavedFirst_shape_all [] _ _ _ _ (by rfl)
          | exact userSavedFirst_shape_all
              [CallEvent.createConv userId (generateConversationTitle message)] _ _ _ _ (by rfl)
          | exact userSavedFirst_noUpstream_all _ (by rfl)

/-- Claim C6: a chat request whose message is absent, empty or
whitespace-only is answered with HTTP 400 by both handlers, and the
handler terminates before any call is issued: no conversation is
created, no message row is inserted (the trace of issued calls is
empty). -/
theorem emptyMessage_rejected_before_write (env : ChatEnv) (userId : Nat)
    (req : ChatRequest) (h : emptyMessage req.message = true) :
    (handleChatStream env userId req).status = 400 ∧
    (handleChatStream env userId req).trace = [] ∧
    (handleChat env userId req).status = 400 ∧
    (handleChat env userId req).trace = [] := by
  obtain ⟨msg, cidOpt⟩ := req
  match msg with
  | none => simp [handleChatStream, handleChat]
  | some s =>
    have hv : jsTrim s = "" := by simpa [emptyMessage] using h
    simp [handleChatStream, handleChat, hv]

/-- A concrete environment in which every awaited call succeeds. -/
def env0 : ChatEnv :=
  { newConvId := 42, createOk := true, saveUserOk := true, contextOk := true,
    ollamaAvailable := true, saveEchoOk := true, echoBumpOk := true,
    chatResult := Except.ok "Hi there!", saveAssistantOk := true, bumpOk := true,
    catchSaveOk := true, dbErr := "db failure" }

/-- Witness for claim C6 at the concrete whitespace-only message. -/
theorem emptyMessage_rejected_before_write_witness :
    emptyMessage (some "   ") = true ∧
    (handleChatStream env0 1 ⟨some "   ", none⟩).status = 400 ∧
    (handleChatStream env0 1 ⟨some "   ", none⟩).trace = [] ∧
    (handleChat env0 1 ⟨some "   ", none⟩).status = 400 ∧
    (handleChat env0 1 ⟨some "   ", none⟩).trace = [] :=
  ⟨by decide,
   (emptyMessage_rejected_before_write env0 1 ⟨some "   ", none⟩ (by decide)).1,
   (emptyMessage_rejected_before_write env0 1 ⟨some "   ", none⟩ (by decide)).2.1,
   (emptyMessage_rejected_before_write env0 1 ⟨some "   ", none⟩ (by decide)).2.2.1,
   (emptyMessage_rejected_before_write env0 1 ⟨some "   ", none⟩ (by decide)).2.2.2⟩

theorem jsTrim_eq_empty_iff (s : String) :
    jsTrim s = "" ↔ s.data.all Char.isWhitespace = true := by
  unfold jsTrim
  rw [String.ext_iff]
  show ((s.data.dropWhile Char.isWhitespace).reverse.dropWhile
      Char.isWhitespace).reverse = ("" : String).data ↔ _
  rw [show ("" : String).data = [] from rfl, List.reverse_eq_nil_iff,
    List.dropWhile_eq_nil_iff, List.all_eq_true]
  constructor
  · intro h x hx
    by_cases hw : x ∈ s.data.takeWhile Char.isWhitespace
    · exact List.mem_takeWhile_imp hw
    · have hxd : x ∈ s.data.dropWhile Char.isWhitespace := by
        have := List.takeWhile_append_dropWhile Char.isWhitespace (l := s.data)
        rw [← this] at hx
        rcases List.mem_append.mp hx with h1 | h2
        · exact absurd h1 hw
        · exact h2
      exact h x (List.mem_reverse.mpr hxd)
  · intro h x hx
    exact h x (List.Sublist.subset (List.dropWhile_sublist Char.isWhitespace)
      (List.mem_reverse.mp hx))

/-- Contents of the user-turn saves in a trace, in order. -/
def userSaveContents (tr : List CallEvent) : List String :=
  tr.filterMap (fun e =>
    match e with
    | CallEvent.saveMsg _ Role.user m _ => some m
    | _ => none)

set_option maxHeartbeats 4000000 in
theorem stream_userSaves (env : ChatEnv) (userId : Nat) (s : String)
    (cidOpt : Option Nat) (hv : ¬ jsTrim s = "") :
    ∀ x ∈ userSaveContents (handleChatStream env userId ⟨some s, cidOpt⟩).trace,
      x = s := by
  simp only [handleChatStream]
  rw [if_neg hv]
  unfold handleChatStreamBody
  repeat' split
  all_goals (intro x hx; simp [userSaveContents] at hx; try exact hx)

set_option maxHeartbeats 4000000 in
theorem chat_userSaves (env : ChatEnv) (userId : Nat) (s : String)
    (cidOpt : Option Nat) (hv : ¬ jsTrim s = "") :
    ∀ x ∈ userSaveContents (handleChat env userId ⟨some s, cidOpt⟩).trace,
      x = s := by
  simp only [handleChat]
  rw [if_neg hv]
  unfold handleChatBody handleChatCatch
  repeat' split
  all_goals (intro x hx; simp [userSaveContents] at hx; try exact hx)

set_option maxHeartbeats 4000000 in
theorem stream_status_accepted (env : ChatEnv) (userId : Nat) (s : String)
    (cidOpt : Option Nat) (hv : ¬ jsTrim s = "") :
    (handleChatStream env userId ⟨some s, cidOpt⟩).status = 200 := by
  simp only [handleChatStream]
  rw [if_neg hv]
  unfold handleChatStreamBody
  repeat' split
  all_goals rfl

set_option maxHeartbeats 4000000 in
theorem chat_status_accepted (env : ChatEnv) (userId : Nat) (s : String)
    (cidOpt : Option Nat) (hv : ¬ jsTrim s = "") :
    (handleChat env userId ⟨some s, cidOpt⟩).status = 200 := by
  simp only [handleChat]
  rw [if_neg hv]
  unfold handleChatBody handleChatCatch
  repeat' split
  all_goals rfl

set_option maxHeartbeats 2000000 in
/-- Claim C10: both handlers answer 400 exactly when the message is
absent, empty or whitespace-only — the guard tests the trimmed content,
so `emptyMessage (some s)` holds precisely when `s` consists only of
whitespace characters (the empty string included) — a rejected request
issues no call at all (no state change), and every user turn a handler
ever saves is the raw request message, untrimmed. -/
theorem validation_boundary (env : ChatEnv) (userId : Nat) (req : ChatRequest) :
    ((handleChatStream env userId req).status
      = if emptyMessage req.message then 400 else 200) ∧
    ((handleChat env userId req).status
      = if emptyMessage req.message then 400 else 200) ∧
    (∀ s, emptyMessage (some s) = true ↔ s.data.all Char.isWhitespace = true) ∧
    emptyMessage none = true ∧
    (emptyMessage req.message = true →
      (handleChatStream env userId req).trace = [] ∧
      (handleChat env userId req).trace = []) ∧
    (∀ m, (m ∈ userSaveContents (handleChatStream env userId req).trace ∨
           m ∈ userSaveContents (handleChat env userId req).trace) →
      req.message = some m) := by
  obtain ⟨msg, cidOpt⟩ := req
  refine ⟨?_, ?_, ?_, rfl, ?_, ?_⟩
  · match msg with
    | none => rfl
    | some s =>
      by_cases hv : jsTrim s = ""
      · simp [handleChatStream, emptyMessage, hv]
      · have he : emptyMessage (some s) = false := by simp [emptyMessage, hv]
        rw [he]
        exact stream_status_accepted env userId s cidOpt hv
  · match msg with
    | none => rfl
    | some s =>
      by_cases hv : jsTrim s = ""
      · simp [handleChat, emptyMessage, hv]
      · have he : emptyMessage (some s) = false := by simp [emptyMessage, hv]
        rw [he]
        exact chat_status_accepted env userId s cidOpt hv
  · intro s
    simp only [emptyMessage, decide_eq_true_eq]
    exact jsTrim_eq_empty_iff s
  · intro h
    match msg with
    | none => exact ⟨rfl, rfl⟩
    | some s =>
      have hv : jsTrim s = "" := by simpa [emptyMessage] using h
      constructor <;> simp [handleChatStream, handleChat, hv]
  · intro m hm
    match msg with
    | none =>
      rcases hm with hm | hm <;>
        simp [handleChatStream, handleChat, userSaveContents] at hm
    | some s =>
      by_cases hv : jsTrim s = ""
      · rcases hm with hm | hm <;>
          simp [handleChatStream, handleChat, hv, userSaveContents] at hm
      · rcases hm with hm | hm
        · rw [stream_userSaves env userId s cidOpt hv m hm]
        · rw [chat_userSaves env userId s cidOpt hv m hm]

/-- Witness for claim C10: the accepted message "Hi" is stored
untrimmed as the user turn, and the whitespace-only message is rejected
with an empty trace. -/
theorem validation_boundary_witness :
    ("Hi" ∈ userSaveContents (handleChatStream env0 1 ⟨some "Hi", some 3⟩).trace) ∧
    (some "Hi" : Option String) = some "Hi" ∧
    emptyMessage (some "  ") = true ∧
    (handleChatStream env0 1 ⟨some "  ", none⟩).trace = [] ∧
    (handleChat env0 1 ⟨some "  ", none⟩).trace = [] :=
  ⟨by decide,
   (validation_boundary env0 1 ⟨some "Hi", some 3⟩).2.2.2.2.2 "Hi" (Or.inl (by decide)),
   by decide,
   ((validation_boundary env0 1 ⟨some "  ", none⟩).2.2.2.2.1 (by decide)).1,
   ((validation_boundary env0 1 ⟨some "  ", none⟩).2.2.2.2.1 (by decide)).2⟩

/-- Environment in which the `ollama.chat` invocation rejects (every
other call succeeds). -/
def envChatFails : ChatEnv :=
  { env0 with chatResult := Except.error "connection reset" }

/-- Counterexample to claim C7 as stated: in the streaming handler, when
`ollama.chat` rejects after the user turn was persisted, the catch
block only writes an SSE `error` event and ends the stream — no
assistant turn (no best-effort error message) is persisted, so the
claim's "in both chat handlers" fails for `handleChatStream`. -/
theorem stream_error_turn_not_persisted :
    (handleChatStream envChatFails 1 ⟨some "Hi", some 7⟩).trace =
      [CallEvent.saveMsg 7 Role.user "Hi" none, CallEvent.getContext 7,
       CallEvent.probe, CallEvent.chatCall] ∧
    ((handleChatStream envChatFails 1 ⟨some "Hi", some 7⟩).trace.any
      isAssistantSave) = false ∧
    (handleChatStream envChatFails 1 ⟨some "Hi", some 7⟩).sse =
      [SseEvent.start, SseEvent.error (streamErrorText "connection reset")] :=
  ⟨by decide, by decide, by decide⟩

/-- The conversation id in scope in a handler's catch block: the id
supplied by the request, or the id of the conversation created when
none was supplied (none when that creation itself rejected). -/
def resolveConv (env : ChatEnv) (req : ChatRequest) : Option Nat :=
  match req.conversationId with
  | some c => some c
  | none => if env.createOk then some env.newConvId else none

/-- Environments in which `handleChat` raises an exception strictly
after the user turn was successfully persisted: the context read, the
chat call, or one of the persistence steps after it rejects. -/
def throwsAfterUserSave (env : ChatEnv) : Bool :=
  env.saveUserOk &&
    (!env.contextOk
     || (env.ollamaAvailable &&
          (match env.chatResult with
           | Except.error _ => true
           | Except.ok _ => !env.saveAssistantOk || !env.bumpOk))
     || (!env.ollamaAvailable && (!env.saveEchoOk || !env.echoBumpOk)))

theorem handleChatCatch_spec (env : ChatEnv) (cid : Nat) (e : String)
    (tr : List CallEvent) :
    CallEvent.saveMsg cid Role.assistant (chatErrorText e) none
        ∈ (handleChatCatch env (some cid) e tr).trace ∧
    (handleChatCatch env (some cid) e tr).body
        = JsonBody.reply (chatErrorText e) none (some cid) ∧
    (handleChatCatch env (some cid) e tr).status = 200 := by
  simp only [handleChatCatch]
  by_cases hcs : env.catchSaveOk = true
  · rw [if_neg (fun hc => hc hcs)]
    exact ⟨by simp, rfl, rfl⟩
  · rw [if_pos hcs]
    exact ⟨by simp, rfl, rfl⟩

theorem handleChatBody_throws (env : ChatEnv) (cid : Nat) (s : String)
    (t0 : List CallEvent) (hth : throwsAfterUserSave env = true) :
    ∃ e, CallEvent.saveMsg cid Role.assistant (chatErrorText e) none
          ∈ (handleChatBody env cid s t0).trace ∧
      (handleChatBody env cid s t0).body
          = JsonBody.reply (chatErrorText e) none (some cid) ∧
      (handleChatBody env cid s t0).status = 200 := by
  have hparts := hth
  unfold throwsAfterUserSave at hparts
  rw [Bool.and_eq_true] at hparts
  obtain ⟨hsave, hrest⟩ := hparts
  unfold handleChatBody
  rw [if_neg (fun hc => hc hsave)]
  by_cases hctx : env.contextOk = true
  · rw [if_neg (fun hc => hc hctx)]
    by_cases hav : env.ollamaAvailable = true
    · rw [if_neg (fun hc => hc hav)]
      split
      next e hchat =>
        exact ⟨e, (handleChatCatch_spec env cid e _).1,
          (handleChatCatch_spec env cid e _).2.1,
          (handleChatCatch_spec env cid e _).2.2⟩
      next reply hchat =>
        rw [hchat] at hrest
        simp only [hctx, hav, Bool.not_true, Bool.false_or, Bool.true_and] at hrest
        by_cases hsa : env.saveAssistantOk = true
        · rw [if_neg (fun hc => hc hsa)]
          have hb : ¬ env.bumpOk = true := by
            simp only [hsa, Bool.not_true, Bool.false_or, Bool.false_and,
              Bool.or_false, Bool.not_eq_true'] at hrest
            simp [hrest]
          rw [if_pos hb]
          exact ⟨env.dbErr, (handleChatCatch_spec env cid env.dbErr _).1,
            (handleChatCatch_spec env cid env.dbErr _).2.1,
            (handleChatCatch_spec env cid env.dbErr _).2.2⟩
        · rw [if_pos hsa]
          exact ⟨env.dbErr, (handleChatCatch_spec env cid env.dbErr _).1,
            (handleChatCatch_spec env cid env.dbErr _).2.1,
            (handleChatCatch_spec env cid env.dbErr _).2.2⟩
    · rw [if_pos hav]
      simp only [hctx, hav, Bool.not_true, Bool.false_or, Bool.not_false,
        Bool.true_and, Bool.false_and, Bool.or_false] at hrest
      by_cases hse : env.saveEchoOk = true
      · rw [if_neg (fun hc => hc hse)]
        have hb : ¬ env.echoBumpOk = true := by
          simp only [hse, Bool.not_true, Bool.false_or, Bool.not_eq_true'] at hrest
          simp [hrest]
        rw [if_pos hb]
        exact ⟨env.dbErr, (handleChatCatch_spec env cid env.dbErr _).1,
          (handleChatCatch_spec env cid env.dbErr _).2.1,
          (handleChatCatch_spec env cid env.dbErr _).2.2⟩
      · rw [if_pos hse]
        exact ⟨env.dbErr, (handleChatCatch_spec env cid env.dbErr _).1,
          (handleChatCatch_spec env cid env.dbErr _).2.1,
          (handleChatCatch_spec env cid env.dbErr _).2.2⟩
  · rw [if_pos hctx]
    exact ⟨env.dbErr, (handleChatCatch_spec env cid env.dbErr _).1,
      (handleChatCatch_spec env cid env.dbErr _).2.1,
      (handleChatCatch_spec env cid env.dbErr _).2.2⟩

/-- Claim C7, amended: in the NON-STREAMING handler `handleChat`, for
every execution in which an exception is raised after the user turn was
persisted, a best-effort error message is persisted as the assistant
turn of the conversation in scope before the error is surfaced in the
(200) JSON response, and a failure of that best-effort persist is
swallowed — the same response is produced whether or not it succeeds
(the statement holds for every value of `catchSaveOk`).  The streaming
handler does not do this: its catch block only emits an SSE `error`
event (see the counterexample). -/
theorem handleChat_error_turn_persisted (env : ChatEnv) (userId : Nat)
    (req : ChatRequest) (cid : Nat) (hres : resolveConv env req = some cid)
    (hne : emptyMessage req.message = false)
    (hth : throwsAfterUserSave env = true) :
    ∃ e, CallEvent.saveMsg cid Role.assistant (chatErrorText e) none
          ∈ (handleChat env userId req).trace ∧
      (handleChat env userId req).body
          = JsonBody.reply (chatErrorText e) none (some cid) ∧
      (handleChat env userId req).status = 200 := by
  obtain ⟨msg, cidOpt⟩ := req
  match msg with
  | none => exact absurd hne (by simp [emptyMessage])
  | some s =>
    have hv : ¬ jsTrim s = "" := by
      intro h
      simp [emptyMessage, h] at hne
    simp only [handleChat]
    rw [if_neg hv]
    match cidOpt with
    | some c =>
      have hc : c = cid := by simpa [resolveConv] using hres
      subst hc
      exact handleChatBody_throws env c s [] hth
    | none =>
      by_cases hcok : env.createOk = true
      · rw [show resolveConv env ⟨some s, none⟩
            = (if env.createOk = true then some env.newConvId else none)
          from rfl, if_pos hcok] at hres
        have hcid : env.newConvId = cid := by simpa using hres
        simp only [hcok, if_true]
        exact hcid ▸ handleChatBody_throws env env.newConvId s
          [CallEvent.createConv userId (generateConversationTitle s)] hth
      · rw [show resolveConv env ⟨some s, none⟩
            = (if env.createOk = true then some env.newConvId else none)
          from rfl, if_neg hcok] at hres
        exact absurd hres (by simp)

/-- Witness for the amended claim C7: with the chat call rejecting and
conversation 7 supplied, the error text is persisted as the assistant
turn and returned in the 200 JSON body. -/
theorem handleChat_error_turn_persisted_witness :
    resolveConv envChatFails ⟨some "Yo", some 7⟩ = some 7 ∧
    emptyMessage (some "Yo") = false ∧
    throwsAfterUserSave envChatFails = true ∧
    (∃ e, CallEvent.saveMsg 7 Role.assistant (chatErrorText e) none
          ∈ (handleChat envChatFails 1 ⟨some "Yo", some 7⟩).trace ∧
      (handleChat envChatFails 1 ⟨some "Yo", some 7⟩).body
          = JsonBody.reply (chatErrorText e) none (some 7) ∧
      (handleChat envChatFails 1 ⟨some "Yo", some 7⟩).status = 200) :=
  ⟨by decide, by decide, by decide,
   handleChat_error_turn_persisted envChatFails 1 ⟨some "Yo", some 7⟩ 7
     (by decide) (by decide) (by decide)⟩

/-- A database state: the `conversations` and `messages` tables. -/
structure DbState where
  convs : List ConvRow
  msgs : List MsgRow
deriving DecidableEq

/-- Fresh AUTOINCREMENT id for a message insert. -/
def nextMsgId (db : DbState) : Nat := (db.msgs.map MsgRow.id).foldr max 0 + 1

/-- Fresh AUTOINCREMENT id for a conversation insert. -/
def nextConvId (db : DbState) : Nat := (db.convs.map ConvRow.id).foldr max 0 + 1

/-- Effect of one issued call on the database state, with `now` the
SQLite `CURRENT_TIMESTAMP` at execution time: `messages.save` inserts a
row stamped `now`; `conversations.updateTimestamp` is
`UPDATE conversations SET updated_at = CURRENT_TIMESTAMP WHERE id = ?`;
`conversations.create` inserts a row with both timestamps `now`; reads
and upstream calls leave the database unchanged. -/
def applyEvent (now : Nat) (db : DbState) : CallEvent → DbState
  | CallEvent.saveMsg cid role content model =>
      ⟨db.convs, db.msgs ++ [⟨nextMsgId db, cid, role, content, model, now⟩]⟩
  | CallEvent.updateTs cid =>
      ⟨db.convs.map (fun c =>
        if c.id = cid then ⟨c.id, c.user_id, c.title, c.created_at, now⟩ else c),
       db.msgs⟩
  | CallEvent.createConv uid title =>
      ⟨db.convs ++ [⟨nextConvId db, uid, title, now, now⟩], db.msgs⟩
  | _ => db

/-- Replay of a timestamped call trace against a database state. -/
def applyTimed (db : DbState) : List (Nat × CallEvent) → DbState
  | [] => db
  | (t, e) :: rest => applyTimed (applyEvent t db e) rest

/-- The `updated_at` column of the conversation with the given id. -/
def updatedAtOf (db : DbState) (cid : Nat) : Option Nat :=
  (db.convs.find? (fun c => c.id == cid)).map ConvRow.updated_at

/-- Every stored `updated_at` is at most `t` (the wall clock has not
run backwards relative to the stored stamps). -/
def dbTimeBound (db : DbState) (t : Nat) : Prop :=
  ∀ c ∈ db.convs, c.updated_at ≤ t

instance (db : DbState) (t : Nat) : Decidable (dbTimeBound db t) := by
  unfold dbTimeBound
  infer_instance

theorem dbTimeBound_mono {db : DbState} {t t2 : Nat} (h : t ≤ t2)
    (hb : dbTimeBound db t) : dbTimeBound db t2 :=
  fun c hc => Nat.le_trans (hb c hc) h

theorem applyEvent_timeBound (now : Nat) (db : DbState) (e : CallEvent)
    (hb : dbTimeBound db now) : dbTimeBound (applyEvent now db e) now := by
  cases e with
  | saveMsg cid role content model => exact fun c hc => hb c hc
  | updateTs cid =>
    intro c hc
    simp only [applyEvent, List.mem_map] at hc
    obtain ⟨c0, hc0, hceq⟩ := hc
    by_cases h : c0.id = cid
    · rw [if_pos h] at hceq
      rw [← hceq]
    · rw [if_neg h] at hceq
      rw [← hceq]
      exact hb c0 hc0
  | createConv uid title =>
    intro c hc
    simp only [applyEvent, List.mem_append] at hc
    rcases hc with hc | hc
    · exact hb c hc
    · rw [List.mem_singleton.mp hc]
  | getContext cid => exact fun c hc => hb c hc
  | probe => exact fun c hc => hb c hc
  | chatCall => exact fun c hc => hb c hc

theorem find?_updateTs (l : List ConvRow) (cid cid2 now : Nat) (u : Nat)
    (hu : ((l.find? (fun c => c.id == cid)).map ConvRow.updated_at) = some u) :
    ∃ u2, (((l.map (fun c => if c.id = cid2
          then (⟨c.id, c.user_id, c.title, c.created_at, now⟩ : ConvRow)
          else c)).find? (fun c => c.id == cid)).map ConvRow.updated_at) = some u2
      ∧ (u2 = now ∨ u2 = u) := by
  induction l with
  | nil => simp at hu
  | cons a l ih =>
    rw [List.map_cons]
    have hid : (if a.id = cid2
        then (⟨a.id, a.user_id, a.title, a.created_at, now⟩ : ConvRow)
        else a).id = a.id := by
      by_cases h2 : a.id = cid2
      · rw [if_pos h2]
      · rw [if_neg h2]
    by_cases hcase : (a.id == cid) = true
    · simp only [List.find?_cons, hid, hcase] at hu ⊢
      by_cases h2 : a.id = cid2
      · rw [if_pos h2]
        exact ⟨now, rfl, Or.inl rfl⟩
      · rw [if_neg h2]
        exact ⟨u, hu, Or.inr rfl⟩
    · have hf : (a.id == cid) = false := by simpa using hcase
      simp only [List.find?_cons, hid, hf] at hu ⊢
      exact ih hu

theorem applyEvent_updatedAt (now : Nat) (db : DbState) (e : CallEvent)
    (cid : Nat) (hb : dbTimeBound db now) (u : Nat)
    (hu : updatedAtOf db cid = some u) :
    ∃ u2, updatedAtOf (applyEvent now db e) cid = some u2 ∧ u ≤ u2 := by
  have humem : u ≤ now := by
    unfold updatedAtOf at hu
    cases hfind : db.convs.find? (fun c => c.id == cid) with
    | none => rw [hfind] at hu; simp at hu
    | some c =>
      rw [hfind] at hu
      have : c.updated_at = u := by simpa using hu
      rw [← this]
      exact hb c (List.mem_of_find?_eq_some hfind)
  cases e with
  | saveMsg cid2 role content model => exact ⟨u, hu, Nat.le_refl u⟩
  | getContext cid2 => exact ⟨u, hu, Nat.le_refl u⟩
  | probe => exact ⟨u, hu, Nat.le_refl u⟩
  | chatCall => exact ⟨u, hu, Nat.le_refl u⟩
  | createConv uid title =>
    refine ⟨u, ?_, Nat.le_refl u⟩
    unfold updatedAtOf at hu ⊢
    show ((db.convs ++ [(⟨nextConvId db, uid, title, now, now⟩ : ConvRow)]).find?
        (fun c => c.id == cid)).map ConvRow.updated_at = some u
    rw [List.find?_append]
    cases hfind : db.convs.find? (fun c => c.id == cid) with
    | none => rw [hfind] at hu; simp at hu
    | some c =>
      rw [hfind] at hu
      simpa using hu
  | updateTs cid2 =>
    obtain ⟨u2, hu2, hcase⟩ := find?_updateTs db.convs cid cid2 now u hu
    refine ⟨u2, hu2, ?_⟩
    rcases hcase with rfl | rfl
    · exact humem
    · exact Nat.le_refl u2

theorem applyTimed_updatedAt_mono (tes : List (Nat × CallEvent)) :
    ∀ (db : DbState) (t0 cid u : Nat),
      dbTimeBound db t0 → List.Chain (· ≤ ·) t0 (tes.map Prod.fst) →
      updatedAtOf db cid = some u →
      ∃ u2, updatedAtOf (applyTimed db tes) cid = some u2 ∧ u ≤ u2 := by
  induction tes with
  | nil => exact fun db t0 cid u _ _ hu => ⟨u, hu, Nat.le_refl u⟩
  | cons te rest ih =>
    rintro db t0 cid u hb hch hu
    obtain ⟨t, e⟩ := te
    rw [List.map_cons, List.chain_cons] at hch
    obtain ⟨hch1, hch2⟩ := hch
    have hb2 : dbTimeBound db t := dbTimeBound_mono hch1 hb
    obtain ⟨u1, hu1, hle1⟩ := applyEvent_updatedAt t db e cid hb2 u hu
    have hb3 : dbTimeBound (applyEvent t db e) t := applyEvent_timeBound t db e hb2
    obtain ⟨u2, hu2, hle2⟩ := ih (applyEvent t db e) t cid u1 hb3 hch2 hu1
    exact ⟨u2, by simpa [applyTimed] using hu2, Nat.le_trans hle1 hle2⟩

/-- Environment in which the `ollama.chat` invocation rejects. -/
def envChatFails2 : ChatEnv :=
  { env0 with chatResult := Except.error "boom" }

/-- Trace of a streaming request that fails at the chat call. -/
def c8Trace : List CallEvent :=
  (handleChatStream envChatFails2 2 ⟨some "Ping", some 9⟩).trace

/-- Replay of that trace (stamped with times 6..9) against a database
holding conversation 9 with `updated_at = 5`. -/
def c8DbAfter : DbState :=
  applyTimed ⟨[⟨9, 2, "chat", 0, 5⟩], []⟩ ([6, 7, 8, 9].zip c8Trace)

/-- Counterexample to claim C8 as stated: when the streaming chat call
fails after the user turn was saved, the request inserts a message row
(the user turn, created at time 6) but issues no
`conversations.updateTimestamp` at all, so the owning conversation's
`updated_at` stays at its old value 5 — `updated_at` is NOT bumped on
every message insert. -/
theorem updatedAt_not_bumped_on_insert :
    c8Trace.any isSaveEvent = true ∧
    c8Trace.any isUpdateTsEvent = false ∧
    c8DbAfter.msgs.length = 1 ∧
    updatedAtOf c8DbAfter 9 = some 5 :=
  ⟨by decide, by decide, by decide, by decide⟩

/-- Environments in which the whole exchange completes: every database
call succeeds, the probe succeeds, and the chat call returns `reply`. -/
def happyPath (env : ChatEnv) (reply : String) : Prop :=
  env.saveUserOk = true ∧ env.contextOk = true ∧ env.ollamaAvailable = true ∧
  env.chatResult = Except.ok reply ∧ env.saveAssistantOk = true ∧ env.bumpOk = true

instance (env : ChatEnv) (reply : String) : Decidable (happyPath env reply) := by
  unfold happyPath
  infer_instance

theorem handleChatStreamBody_happy (env : ChatEnv) (cid : Nat) (s : String)
    (t0 : List CallEvent) (reply : String) (h : happyPath env reply) :
    (handleChatStreamBody env cid s t0).trace =
      t0 ++ [CallEvent.saveMsg cid Role.user s none, CallEvent.getContext cid,
        CallEvent.probe, CallEvent.chatCall,
        CallEvent.saveMsg cid Role.assistant reply (some llmModel),
        CallEvent.updateTs cid] := by
  obtain ⟨h1, h2, h3, h4, h5, h6⟩ := h
  unfold handleChatStreamBody
  rw [if_neg (fun hc => hc h1), if_neg (fun hc => hc h2), if_neg (fun hc => hc h3)]
  simp only [h4]
  rw [if_neg (fun hc => hc h5), if_neg (fun hc => hc h6)]
  simp

theorem handleChatBody_happy (env : ChatEnv) (cid : Nat) (s : String)
    (t0 : List CallEvent) (reply : String) (h : happyPath env reply) :
    (handleChatBody env cid s t0).trace =
      t0 ++ [CallEvent.saveMsg cid Role.user s none, CallEvent.getContext cid,
        CallEvent.probe, CallEvent.chatCall,
        CallEvent.saveMsg cid Role.assistant reply (some llmModel),
        CallEvent.updateTs cid] := by
  obtain ⟨h1, h2, h3, h4, h5, h6⟩ := h
  unfold handleChatBody
  rw [if_neg (fun hc => hc h1), if_neg (fun hc => hc h2), if_neg (fun hc => hc h3)]
  simp only [h4]
  rw [if_neg (fun hc => hc h5), if_neg (fun hc => hc h6)]
  simp

set_option maxHeartbeats 1000000 in
/-- Claim C8, amended: `updated_at` is monotonically non-decreasing —
replaying any timestamped call trace whose clock is non-decreasing and
not behind the stored stamps never decreases a conversation's
`updated_at` — and it is bumped by `conversations.updateTimestamp`
right after the assistant turn is persisted whenever the exchange
completes.  It is NOT bumped by `messages.save` itself: a request that
fails between the user-turn insert and the assistant turn appends a
message without touching `updated_at` (see the counterexample). -/
theorem updatedAt_monotone_and_bumped_on_completion :
    (∀ (db : DbState) (t0 cid u : Nat) (tes : List (Nat × CallEvent)),
       dbTimeBound db t0 → List.Chain (· ≤ ·) t0 (tes.map Prod.fst) →
       updatedAtOf db cid = some u →
       ∃ u2, updatedAtOf (applyTimed db tes) cid = some u2 ∧ u ≤ u2) ∧
    (∀ (env : ChatEnv) (userId : Nat) (req : ChatRequest) (cid : Nat)
        (reply : String),
       happyPath env reply → resolveConv env req = some cid →
       emptyMessage req.message = false →
       ∃ pre,
         (handleChatStream env userId req).trace
           = pre ++ [CallEvent.saveMsg cid Role.assistant reply (some llmModel),
                     CallEvent.updateTs cid] ∧
         (handleChat env userId req).trace
           = pre ++ [CallEvent.saveMsg cid Role.assistant reply (some llmModel),
                     CallEvent.updateTs cid]) := by
  constructor
  · intro db t0 cid u tes hb hch hu
    exact applyTimed_updatedAt_mono tes db t0 cid u hb hch hu
  · intro env userId req cid reply hh hres hne
    obtain ⟨msg, cidOpt⟩ := req
    match msg with
    | none => exact absurd hne (by simp [emptyMessage])
    | some s =>
      have hv : ¬ jsTrim s = "" := by
        intro h
        simp [emptyMessage, h] at hne
      simp only [handleChatStream, handleChat]
      rw [if_neg hv, if_neg hv]
      match cidOpt with
      | some c =>
        have hc : c = cid := by simpa [resolveConv] using hres
        subst hc
        refine ⟨[CallEvent.saveMsg c Role.user s none, CallEvent.getContext c,
          CallEvent.probe, CallEvent.chatCall], ?_, ?_⟩
        · rw [handleChatStreamBody_happy env c s [] reply hh]
          simp
        · rw [handleChatBody_happy env c s [] reply hh]
          simp
      | none =>
        by_cases hcok : env.createOk = true
        · rw [show resolveConv env ⟨some s, none⟩
              = (if env.createOk = true then some env.newConvId else none)
            from rfl, if_pos hcok] at hres
          have hcid : env.newConvId = cid := by simpa using hres
          subst hcid
          simp only [hcok, if_true]
          refine ⟨[CallEvent.createConv userId (generateConversationTitle s),
            CallEvent.saveMsg env.newConvId Role.user s none,
            CallEvent.getContext env.newConvId,
            CallEvent.probe, CallEvent.chatCall], ?_, ?_⟩
          · rw [handleChatStreamBody_happy env env.newConvId s
              [CallEvent.createConv userId (generateConversationTitle s)] reply hh]
            simp
          · rw [handleChatBody_happy env env.newConvId s
              [CallEvent.createConv userId (generateConversationTitle s)] reply hh]
            simp
        · rw [show resolveConv env ⟨some s, none⟩
              = (if env.createOk = true then some env.newConvId else none)
            from rfl, if_neg hcok] at hres
          exact absurd hres (by simp)

/-- Witness for the amended claim C8: a concrete replay (a user insert
at time 4 and a bump at time 5 over a conversation stamped 3) keeps
`updated_at` non-decreasing, and the all-success environment bumps the
conversation right after persisting the assistant turn in both
handlers. -/
theorem updatedAt_monotone_and_bumped_on_completion_witness :
    dbTimeBound ⟨[⟨7, 1, "t", 0, 3⟩], []⟩ 3 ∧
    List.Chain (· ≤ ·) 3
      (([(4, CallEvent.saveMsg 7 Role.user "Hi" none),
         (5, CallEvent.updateTs 7)] : List (Nat × CallEvent)).map Prod.fst) ∧
    updatedAtOf ⟨[⟨7, 1, "t", 0, 3⟩], []⟩ 7 = some 3 ∧
    (∃ u2, updatedAtOf (applyTimed ⟨[⟨7, 1, "t", 0, 3⟩], []⟩
        [(4, CallEvent.saveMsg 7 Role.user "Hi" none),
         (5, CallEvent.updateTs 7)]) 7 = some u2 ∧ 3 ≤ u2) ∧
    happyPath env0 "Hi there!" ∧
    resolveConv env0 ⟨some "Hi", some 7⟩ = some 7 ∧
    emptyMessage (some "Hi") = false ∧
    (∃ pre,
       (handleChatStream env0 1 ⟨some "Hi", some 7⟩).trace
         = pre ++ [CallEvent.saveMsg 7 Role.assistant "Hi there!" (some llmModel),
                   CallEvent.updateTs 7] ∧
       (handleChat env0 1 ⟨some "Hi", some 7⟩).trace
         = pre ++ [CallEvent.saveMsg 7 Role.assistant "Hi there!" (some llmModel),
                   CallEvent.updateTs 7]) :=
  ⟨by decide, by simp [List.chain_cons], by decide,
   updatedAt_monotone_and_bumped_on_completion.1 ⟨[⟨7, 1, "t", 0, 3⟩], []⟩ 3 7 3
     [(4, CallEvent.saveMsg 7 Role.user "Hi" none), (5, CallEvent.updateTs 7)]
     (by decide) (by simp [List.chain_cons]) (by decide),
   by decide, by decide, by decide,
   updatedAt_monotone_and_bumped_on_completion.2 env0 1 ⟨some "Hi", some 7⟩ 7
     "Hi there!" (by decide) (by decide) (by decide)⟩

/-- Identity of a stored file as surfaced by the storage module.
`saveFile` stamps its metadata with `crypto.randomUUID()` — a dashed
8-4-4-4-12 hex string — while `getUserFiles` (and through it `getFile`
and `deleteFile`) derives ids as the md5 hex digest of
`userId + "_" + fileName`, 32 hex characters with no dash.  The two
string shapes are disjoint (a UUID always contains a dash, an md5 hex
digest never does), which the model captures with two constructors;
the digest is treated as injective on its input (collisions ignored). -/
inductive FileId where
  | uuid (token : Nat)
  | md5 (userId : Nat) (fileName : String)
deriving DecidableEq

/-- SHA-256, modelled as a collision-free fingerprint of the bytes. -/
inductive Digest where
  | sha256 (data : List Nat)
deriving DecidableEq

/-- One file of a user's directory tree: its category subdirectory,
generated name, bytes, and the `birthtime` reported by `fs.stat`. -/
structure FsFile where
  category : String
  fileName : String
  content : List Nat
  birthtime : Nat
deriving DecidableEq

/-- A user's `data/users/{id}` subtree. -/
structure UserDir where
  files : List FsFile
deriving DecidableEq

/-- File metadata as produced by `saveFile` and `getUserFiles` (the
`filePath`/`relativePath` strings, derived from the category and name,
are omitted; `checksum` is only present on save-time metadata, exactly
as in the source). -/
structure FileMeta where
  id : FileId
  fileName : String
  originalName : String
  fileType : String
  category : String
  size : Nat
  userId : Nat
  createdAt : Nat
  checksum : Option Digest
deriving DecidableEq

/-- Alphanumeric test of the sanitizer regex `[^a-zA-Z0-9]`. -/
def isAlnumAscii (c : Char) : Bool :=
  (Char.ofNat 97 ≤ c && c ≤ Char.ofNat 122)
    || (Char.ofNat 65 ≤ c && c ≤ Char.ofNat 90)
    || (Char.ofNat 48 ≤ c && c ≤ Char.ofNat 57)

/-- The base-name step of `generateFileName`:
`originalName.replace(/[^a-zA-Z0-9]/g, '_').toLowerCase()`, or `'file'`
when the original name is falsy. -/
def sanitizeBaseName (originalName : Option String) : String :=
  match originalName with
  | some s =>
      if s = "" then "file"
      else ⟨s.data.map (fun c => if isAlnumAscii c then c.toLower else '_')⟩
  | none => "file"

/-- `path.extname`: the suffix from the last dot of the name; empty
when there is no dot or when the only dot is the leading character. -/
def extname (name : String) : String :=
  let rev := name.data.reverse
  let afterRev := rev.takeWhile (fun c => c ≠ '.')
  match rev.dropWhile (fun c => c ≠ '.') with
  | [] => ""
  | _ :: preRev =>
      if preRev = [] then "" else ⟨'.' :: afterRev.reverse⟩

/-- Substring test (`String.prototype.includes`). -/
def containsSub (needle : List Char) : List Char → Bool
  | [] => needle.isPrefixOf []
  | c :: t => needle.isPrefixOf (c :: t) || containsSub needle t

def jsIncludes (s t : String) : Bool := containsSub t.data s.data

/-- The extension inference of `saveFile`: `path.extname` of the
original name, else a guess from the MIME type. -/
def inferExt (originalName : Option String) (fileType : String) : String :=
  let ext := extname (match originalName with | some s => s | none => "")
  if ext = "" ∧ fileType ≠ "" then
    if jsIncludes fileType "png" then ".png"
    else if jsIncludes fileType "jpeg" || jsIncludes fileType "jpg" then ".jpg"
    else if jsIncludes fileType "pdf" then ".pdf"
    else if jsIncludes fileType "text" then ".txt"
    else ""
  else ext

/-- `generateFileName`: a timestamp, four random bytes in hex, and the
sanitized base name. -/
def generateFileName (timestamp : Nat) (randomHex : String)
    (originalName : Option String) (ext : String) : String :=
  toString timestamp ++ "_" ++ randomHex ++ "_"
    ++ sanitizeBaseName originalName ++ ext

/-- The nondeterministic inputs of one `saveFile` call: `Date.now()`,
`crypto.randomBytes(4).toString('hex')` and `crypto.randomUUID()`. -/
structure SaveEnv where
  timestamp : Nat
  randomHex : String
  uuidToken : Nat
deriving DecidableEq

/-- Embedding of `saveFile`: write the buffer under the generated name
in the category directory and return metadata whose `id` is a fresh
random UUID and whose `checksum` is the SHA-256 of the buffer.
File-system failures are not modelled (the JS catch only rethrows a
generic error). -/
def saveFile (senv : SaveEnv) (dir : UserDir) (userId : Nat)
    (fileBuffer : List Nat) (originalName : Option String) (fileType : String)
    (category : String) : UserDir × FileMeta :=
  let ext := inferExt originalName fileType
  let fileName := generateFileName senv.timestamp senv.randomHex originalName ext
  let newFile : FsFile := ⟨category, fileName, fileBuffer, senv.timestamp⟩
  let meta : FileMeta :=
    { id := FileId.uuid senv.uuidToken
      fileName := fileName
      originalName :=
        (match originalName with
         | some s => if s = "" then fileName else s
         | none => fileName)
      fileType := fileType
      category := category
      size := fileBuffer.length
      userId := userId
      createdAt := senv.timestamp
      checksum := some (Digest.sha256 fileBuffer) }
  (⟨dir.files ++ [newFile]⟩, meta)

/-- Hexadecimal-lowercase test of the prefix regex class `[a-f0-9]`. -/
def isHexLower (c : Char) : Bool :=
  (Char.ofNat 97 ≤ c && c ≤ Char.ofNat 102) || c.isDigit

/-- Recovery of the original name in `getUserFiles`:
`fileName.replace(/^\d+_[a-f0-9]+_/, '')`. -/
def stripGeneratedPrefix (name : String) : String :=
  match name.data.takeWhile Char.isDigit,
        name.data.dropWhile Char.isDigit with
  | _ :: _, '_' :: r2 =>
      (match r2.takeWhile isHexLower, r2.dropWhile isHexLower with
       | _ :: _, '_' :: r4 => ⟨r4⟩
       | _, _ => name)
  | _, _ => name

/-- The extension-to-MIME-type table of `getUserFiles` (applied to the
lower-cased `path.extname` of the stored name). -/
def extToType (ext : String) : String :=
  if ext = ".png" then "image/png"
  else if ext = ".jpg" ∨ ext = ".jpeg" then "image/jpeg"
  else if ext = ".webp" then "image/webp"
  else if ext = ".gif" then "image/gif"
  else if ext = ".pdf" then "application/pdf"
  else if ext = ".txt" ∨ ext = ".md" then "text/plain"
  else if ext = ".json" then "application/json"
  else if ext = ".doc" then "application/msword"
  else if ext = ".docx" then
    "application/vnd.openxmlformats-officedocument.wordprocessingml.document"
  else if ext = ".csv" then "text/csv"
  else "application/octet-stream"

/-- Hidden-file test `fileName.startsWith('.')`. -/
def isDotFile (name : String) : Bool :=
  match name.data with
  | c :: _ => c = '.'
  | [] => false

/-- The listing metadata `getUserFiles` reconstructs for one stored
file: the id is the md5 digest of `userId + "_" + fileName`, the
original name is recovered by stripping the generated prefix, and the
type is guessed from the extension; no checksum is recovered. -/
def listedFile (userId : Nat) (f : FsFile) : FileMeta :=
  { id := FileId.md5 userId f.fileName
    fileName := f.fileName
    originalName := stripGeneratedPrefix f.fileName
    fileType := extToType ⟨(extname f.fileName).data.map Char.toLower⟩
    category := f.category
    size := f.content.length
    userId := userId
    createdAt := f.birthtime
    checksum := none }

/-- Descending creation-time comparator of the listing sort. -/
def metaDescLe (a b : FileMeta) : Prop := b.createdAt ≤ a.createdAt

instance : DecidableRel metaDescLe := fun a b => Nat.decLe b.createdAt a.createdAt

/-- Embedding of `getUserFiles`: walk the requested categories (all
three when none is given), skip dotfiles, rebuild metadata from the
directory listing, and sort by creation time descending. -/
def getUserFiles (dir : UserDir) (userId : Nat) (category : Option String) :
    List FileMeta :=
  let cats := match category with
    | some c => [c]
    | none => ["images", "documents", "artifacts"]
  List.insertionSort metaDescLe
    (cats.flatMap (fun cat =>
      ((dir.files.filter (fun f => f.category == cat)).filter
          (fun f => !(isDotFile f.fileName))).map (listedFile userId)))

/-- Embedding of `getFile`: re-list the user's files, match the
requested id against the derived ids, and read the matched file's
bytes; a missing id or a failed read surfaces as the generic
`Failed to read file` error. -/
def getFile (dir : UserDir) (userId : Nat) (fileId : FileId) :
    Except String (FileMeta × List Nat) :=
  match (getUserFiles dir userId none).find? (fun f => f.id == fileId) with
  | none => Except.error "Failed to read file"
  | some f =>
      match dir.files.find?
          (fun g => g.fileName == f.fileName && g.category == f.category) with
      | some g => Except.ok (f, g.content)
      | none => Except.error "Failed to read file"

theorem listed_ids_are_md5 (dir : UserDir) (userId : Nat)
    (category : Option String) :
    ∀ f ∈ getUserFiles dir userId category, ∃ name, f.id = FileId.md5 userId name := by
  intro f hf
  unfold getUserFiles at hf
  rw [List.mem_insertionSort] at hf
  obtain ⟨cat, _, hf2⟩ := List.mem_flatMap.mp hf
  obtain ⟨g, _, rfl⟩ := List.mem_map.mp hf2
  exact ⟨g.fileName, rfl⟩

/-- The environment of one concrete `saveFile` call: `Date.now() = 111`,
random hex `"abcd1234"`, and a fresh UUID. -/
def saveEnvW : SaveEnv := ⟨111, "abcd1234", 99⟩

/-- Directory after saving the two-byte buffer `hi` as `a.txt` into an
empty user directory. -/
def savedDirW : UserDir :=
  (saveFile saveEnvW ⟨[]⟩ 1 [104, 105] (some "a.txt") "text/plain" "documents").1

/-- The save-time metadata of that call. -/
def savedMetaW : FileMeta :=
  (saveFile saveEnvW ⟨[]⟩ 1 [104, 105] (some "a.txt") "text/plain" "documents").2

/-- Claim C3, evaluated against the code (the claim itself is right and
the code wrong): `saveFile` stamps its returned metadata with a fresh
random UUID as `id`, but `getFile` resolves ids by re-listing the
directory, where every id is the md5 digest of `userId_fileName` — a
shape a UUID can never take.  So `getFile(userId, saveFile(...).id)`
always fails with `Failed to read file` (first, universally quantified
conjunct, and the concrete run), even though the file and its bytes are
on disk: reading the same file by its listing-derived md5 id returns the
saved bytes byte-for-byte, and the save-time checksum equals the
SHA-256 of those bytes, which is the round trip the claim intends. -/
theorem saveFile_id_unreadable :
    (∀ (senv : SaveEnv) (dir : UserDir) (userId uid2 : Nat) (buffer : List Nat)
        (originalName : Option String) (fileType category : String),
      getFile (saveFile senv dir userId buffer originalName fileType category).1
          uid2 (saveFile senv dir userId buffer originalName fileType category).2.id
        = Except.error "Failed to read file") ∧
    savedMetaW.id = FileId.uuid 99 ∧
    getFile savedDirW 1 savedMetaW.id = Except.error "Failed to read file" ∧
    savedMetaW.fileName = "111_abcd1234_a_txt.txt" ∧
    (getFile savedDirW 1 (FileId.md5 1 savedMetaW.fileName)).toOption.map Prod.snd
      = some [104, 105] ∧
    savedMetaW.checksum = some (Digest.sha256 [104, 105]) := by
  refine ⟨?_, by decide, by decide, by decide, by decide, by decide⟩
  intro senv dir userId uid2 buffer originalName fileType category
  have hid : (saveFile senv dir userId buffer originalName fileType category).2.id
      = FileId.uuid senv.uuidToken := rfl
  have hfind : ((getUserFiles
      (saveFile senv dir userId buffer originalName fileType category).1 uid2
      none).find? (fun f => f.id
        == (saveFile senv dir userId buffer originalName fileType category).2.id))
      = none := by
    rw [List.find?_eq_none]
    intro f hf
    obtain ⟨name, hname⟩ := listed_ids_are_md5 _ uid2 none f hf
    rw [hid, hname]
    simp
  unfold getFile
  rw [hfind]
